import Mathlib

/-!
Verification of the directory-ingestion tool `digest.py`.

The development shallowly embeds the filtering and traversal pipeline of the
program: glob-pattern compilation and matching (`fnmatch.translate` followed by
`re.compile(...).search`), the file filter `should_process_file`, the binary
heuristic `is_likely_binary_file`, the tree renderer `generate_tree_display`,
and the orchestration `ingest_repo`.  Strings of bytes are modelled as
`List Nat`, text as `String`, and the filesystem seen by `os.walk` as an
explicit list of file entries in discovery order.  All definitions are
structurally recursive so that concrete runs evaluate inside the kernel.
-/

namespace Digest

/-! ### Glob pattern matching

`fnmatch.translate` turns a glob string into the regex `(?s:BODY)\Z`, where
`BODY` translates `*` to `.*`, `?` to `.` (any character, including newline
because of the `s` flag), bracket classes `[...]` to regex classes (with `!`
negation, ranges, literal treatment of a leading `]`, removal of inverted
ranges, and an unclosed `[` escaped to a literal), and every other character
to its escaped literal self.  `matchGlob` is that BODY matched against the
whole candidate string.  Character comparisons follow Python string order,
which is code-point order. -/

/-- Does the character fall in the inclusive code-point range `lo`..`hi`?
An inverted range (`lo > hi`) matches nothing, exactly as
`fnmatch.translate` deletes such ranges from the class. -/
def rangeHit (lo hi c : Char) : Bool :=
  decide (lo.val ≤ c.val) && decide (c.val ≤ hi.val)

/-- Membership of a character in the body of a bracket class, reading the
body left to right: `x-y` forms a range, any other character is a literal,
and a hyphen that is first, last, or directly after a range is a literal. -/
def classMatch : List Char → Char → Bool
  | x :: '-' :: y :: rest, c => rangeHit x y c || classMatch rest c
  | x :: rest, c => (x == c) || classMatch rest c
  | [], _ => false

/-- Split a character list at the first `]`, returning the part before it
and the part after it, or `none` when there is no `]`. -/
def splitAtRBracket : List Char → Option (List Char × List Char)
  | [] => none
  | c :: cs =>
    if c = ']' then some ([], cs)
    else
      match splitAtRBracket cs with
      | none => none
      | some (a, b) => some (c :: a, b)

/-- Scan for the closing `]` of a bracket class, following the
`fnmatch.translate` rule: a leading `!` and then a leading `]` are skipped
before the scan, so those characters belong to the class body.  Returns the
negation flag, the class body, and the rest of the pattern, or `none` when
the class is unclosed (in which case `[` is a literal). -/
def parseBracket : List Char → Option (Bool × List Char × List Char)
  | '!' :: ps =>
    (match ps with
     | ']' :: ps2 =>
       match splitAtRBracket ps2 with
       | some (a, b) => some (true, ']' :: a, b)
       | none => none
     | _ =>
       match splitAtRBracket ps with
       | some (a, b) => some (true, a, b)
       | none => none)
  | ']' :: ps =>
    (match splitAtRBracket ps with
     | some (a, b) => some (false, ']' :: a, b)
     | none => none)
  | ps =>
    match splitAtRBracket ps with
    | some (a, b) => some (false, a, b)
    | none => none

/-- All suffixes of a list, longest first, ending with `[]`. -/
def suffixes : List Char → List (List Char)
  | [] => [[]]
  | c :: cs => (c :: cs) :: suffixes cs

/-- One unit of the regex produced by `fnmatch.translate`: `.*` from `*`,
`.` from `?`, a character class (possibly negated) from `[...]`, or a
single escaped literal character. -/
inductive GlobToken where
  | star : GlobToken
  | qmark : GlobToken
  | cls : Bool → List Char → GlobToken
  | lit : Char → GlobToken
deriving DecidableEq

/-- The scanning loop of `fnmatch.translate`, driven by fuel.  Every step
consumes at least one pattern character (a bracket class consumes its body
and its closing `]`), so fuel equal to the pattern length always suffices;
the wrapper below supplies exactly that. -/
def tokenizeFuel : Nat → List Char → List GlobToken
  | 0, _ => []
  | _ + 1, [] => []
  | fuel + 1, '*' :: ps => GlobToken.star :: tokenizeFuel fuel ps
  | fuel + 1, '?' :: ps => GlobToken.qmark :: tokenizeFuel fuel ps
  | fuel + 1, '[' :: ps =>
    (match parseBracket ps with
     | none => GlobToken.lit '[' :: tokenizeFuel fuel ps
     | some (neg, body, rest) => GlobToken.cls neg body :: tokenizeFuel fuel rest)
  | fuel + 1, c :: ps => GlobToken.lit c :: tokenizeFuel fuel ps

/-- The token sequence of the regex body `fnmatch.translate` builds from a
glob pattern. -/
def translateGlob (p : List Char) : List GlobToken :=
  tokenizeFuel p.length p

/-- Whole-string matching of a translated glob body against a string:
`*` matches any run of characters including path separators and newlines
(the `s` regex flag), `?` matches exactly one character, a class matches
one character, everything else is literal. -/
def matchTokens : List GlobToken → List Char → Bool
  | [], s => s.isEmpty
  | GlobToken.star :: ts, s => (suffixes s).any (fun s2 => matchTokens ts s2)
  | GlobToken.qmark :: ts, s =>
    (match s with
     | [] => false
     | _ :: s2 => matchTokens ts s2)
  | GlobToken.cls neg body :: ts, s =>
    (match s with
     | [] => false
     | c :: s2 => (classMatch body c != neg) && matchTokens ts s2)
  | GlobToken.lit x :: ts, s =>
    (match s with
     | [] => false
     | c :: s2 => (x == c) && matchTokens ts s2)

/-- Anchored whole-string matching of a glob against a string.  This is
simultaneously the BODY of the regex produced by `fnmatch.translate`
(matched in full) and the anchored whole-string shell-glob semantics
described by the specification. -/
def matchGlob (p s : List Char) : Bool :=
  matchTokens (translateGlob p) s

/-- Matching as the program actually performs it:
`re.compile(fnmatch.translate(p)).search(s)`.  The translated regex ends in
`\Z`, so a search hit is a match of the whole body against some suffix of
`s`: the match is anchored at the end of the string but not at its start. -/
def searchGlob (p s : List Char) : Bool :=
  (suffixes s).any (fun s2 => matchGlob p s2)

/-- String-level wrapper for the compiled-pattern search used by the code. -/
def globSearchStr (p s : String) : Bool :=
  searchGlob p.data s.data

/-- String-level wrapper for anchored whole-string glob matching, the
standard shell-glob semantics named by the specification. -/
def globFullMatchStr (p s : String) : Bool :=
  matchGlob p.data s.data

/-! ### Path helpers -/

/-- Split a character list on the path separator `/` (the value of `os.sep`
on the POSIX platforms the tool targets), keeping empty components, exactly
like the Python `str.split` method. -/
def splitSep : List Char → List (List Char)
  | [] => [[]]
  | c :: cs =>
    if c = '/' then [] :: splitSep cs
    else
      match splitSep cs with
      | [] => [[c]]
      | p :: ps => (c :: p) :: ps

/-- Components of a relative path, as produced by
`filepath.split(os.sep)`. -/
def pathParts (s : String) : List String :=
  (splitSep s.data).map String.mk

/-- The suffix of a character list after its last occurrence of `sep`, or
the whole list when `sep` does not occur. -/
def afterLastSep (sep : Char) (cs : List Char) : List Char :=
  (cs.reverse.takeWhile (fun c => c ≠ sep)).reverse

/-- The extension of a path, as computed by `os.path.splitext`: the suffix
of the basename from its last dot, provided some earlier character of the
basename is not a dot; otherwise empty (so `.bashrc` and `..png` have no
extension). -/
def extOf (cs : List Char) : List Char :=
  let base := afterLastSep '/' cs
  let tailAfter := base.reverse.takeWhile (fun c => c ≠ '.')
  if tailAfter.length = base.length then []
  else
    let dotPos := base.length - tailAfter.length - 1
    if (base.take dotPos).any (fun c => c ≠ '.') then base.drop dotPos else []

/-! ### Binary heuristic -/

/-- The fixed set `DEFAULT_BINARY_EXTENSIONS` from the source. -/
def DEFAULT_BINARY_EXTENSIONS : List String :=
  [".exe", ".dll", ".so", ".a", ".o", ".obj",
   ".jpg", ".jpeg", ".png", ".gif", ".bmp", ".tiff", ".webp",
   ".mp3", ".wav", ".ogg", ".flac",
   ".mp4", ".avi", ".mov", ".mkv", ".webm",
   ".pdf", ".doc", ".docx", ".xls", ".xlsx", ".ppt", ".pptx",
   ".zip", ".tar", ".gz", ".bz2", ".rar", ".7z",
   ".iso", ".img", ".bin", ".dat",
   ".pyc", ".pyo",
   ".class", ".jar",
   ".sqlite", ".db",
   ".eot", ".otf", ".ttf", ".woff", ".woff2"]

/-- The fixed set `DEFAULT_IGNORE_DIRS` from the source. -/
def DEFAULT_IGNORE_DIRS : List String :=
  [".git", ".hg", ".svn",
   "__pycache__", ".pytest_cache", ".mypy_cache",
   "node_modules", "bower_components",
   ".vscode", ".idea", ".project", ".settings",
   "build", "dist", "target", "out",
   "venv", ".venv", "env", ".env"]

def MAX_FILE_SIZE_DEFAULT_MB : Nat := 5

def BYTES_IN_MB : Nat := 1024 * 1024

/-- Is the lowercased extension of the path in the default binary set?
Lowercasing is `str.lower`, modelled per character; the extensions in the
set are ASCII, for which `Char.toLower` agrees with Python. -/
def extBin (path : String) : Bool :=
  DEFAULT_BINARY_EXTENSIONS.contains (String.mk ((extOf path.data).map Char.toLower))

/-- Number of null bytes in a content sample,
`file_content_sample.count(b'\x00')`. -/
def countNulls (bs : List Nat) : Nat :=
  (bs.filter (fun b => b == 0)).length

/-- The heuristic `is_likely_binary_file`: binary extension, or strictly
more than 10 percent null bytes in the sample.  The source compares
`count > len(sample) * 0.1` in floating point; for every sample length the
program can produce (at most 1024 bytes) that comparison coincides with the
exact rational comparison `10 * count > len`, which is what is embedded.
A missing sample (`None`) raises `AttributeError` in the source, which is
caught and treated as not-binary-by-content. -/
def is_likely_binary_file (path : String) (sample : Option (List Nat)) : Bool :=
  extBin path ||
    (match sample with
     | some bs => decide (bs.length < 10 * countNulls bs)
     | none => false)

/-- Python truthiness of the `file_content_sample` argument: `None` and the
empty byte string are falsy, a nonempty byte string is truthy. -/
def sampleTruthy : Option (List Nat) → Bool
  | none => false
  | some [] => false
  | some (_ :: _) => true

/-! ### The file filter -/

/-- The filter `should_process_file`, with its verbose diagnostics made
explicit: the result is the inclusion decision together with the list of
diagnostic lines printed to stderr.  Include and exclude patterns are the
glob strings handed to `ingest_repo`; matching a compiled pattern against
the relative path is `globSearchStr`, i.e. `re.search` of
`fnmatch.translate` output, exactly as the source compiles and applies
them.  The stages, in source order: ignored directory components, exclude
patterns, include patterns, binary heuristic (skipped when the sample is
falsy; a binary-looking file survives only when explicitly matched by an
include pattern). -/
def should_process_file_verbose (path : String) (incl excl ign : List String)
    (bcheck : Bool) (sample : Option (List Nat)) (verbose : Bool) :
    Bool × List String :=
  if (pathParts path).any (fun part => ign.contains part) then
    (false, if verbose then ["Skipping (ignored directory component in path): " ++ path] else [])
  else if excl.any (fun e => globSearchStr e path) then
    (false, if verbose then ["Skipping (excluded by pattern): " ++ path] else [])
  else if !incl.isEmpty && !(incl.any (fun p => globSearchStr p path)) then
    (false, if verbose then ["Skipping (not included by any pattern): " ++ path] else [])
  else if bcheck && sampleTruthy sample && is_likely_binary_file path sample then
    (if incl.any (fun p => globSearchStr p path) then
      (true, if verbose then ["Warning: including a binary-looking file matched by an include pattern: " ++ path] else [])
     else
      (false, if verbose then ["Skipping (likely binary and not explicitly included): " ++ path] else []))
  else
    (true, [])

/-- The boolean decision of `should_process_file`.  The verbose flag never
changes the decision (proved below), so it is fixed to `false` here. -/
def should_process_file (path : String) (incl excl ign : List String)
    (bcheck : Bool) (sample : Option (List Nat)) : Bool :=
  (should_process_file_verbose path incl excl ign bcheck sample false).fst

/-! ### Tree renderer -/

/-- A node of the nested-dictionary structure built by
`generate_tree_display`: files are marked `None` in the source, directories
are dictionaries, i.e. insertion-ordered association lists. -/
inductive PyNode where
  | file : PyNode
  | dir : List (String × PyNode) → PyNode

/-- Assignment `d[k] = v` on an insertion-ordered dictionary: an existing
key keeps its position and gets the new value, a new key is appended. -/
def dictSet : List (String × PyNode) → String → PyNode → List (String × PyNode)
  | [], k, v => [(k, v)]
  | (k2, v2) :: rest, k, v =>
    if k2 = k then (k, v) :: rest else (k2, v2) :: dictSet rest k v

/-- Lookup in an insertion-ordered dictionary. -/
def dictGet : List (String × PyNode) → String → Option PyNode
  | [], _ => none
  | (k2, v2) :: rest, k => if k2 = k then some v2 else dictGet rest k

/-- Insert one path, already split into components, into the nested
dictionary: the last component is assigned `None` (a file); intermediate
components are `setdefault(part, dict())`.  When an intermediate component
is already a file the source rebinds its cursor to a fresh dictionary that
is never attached, so the structure is left unchanged. -/
def insertParts : List String → List (String × PyNode) → List (String × PyNode)
  | [], d => d
  | [part], d => dictSet d part PyNode.file
  | part :: rest1 :: rest, d =>
    match dictGet d part with
    | some (PyNode.dir sub) => dictSet d part (PyNode.dir (insertParts (rest1 :: rest) sub))
    | some PyNode.file => d
    | none => d ++ [(part, PyNode.dir (insertParts (rest1 :: rest) []))]

/-- Insert a string into a strictly sorted duplicate-free list, keeping it
strictly sorted. -/
def insSorted (x : String) : List String → List String
  | [] => [x]
  | y :: ys =>
    if x < y then x :: y :: ys
    else if x = y then y :: ys
    else y :: insSorted x ys

/-- The canonical strictly increasing duplicate-free enumeration of the
members of a list: the value of `sorted(list(set(filepaths)))`, with
Python string comparison being code-point lexicographic order. -/
def pySortedSet (xs : List String) : List String :=
  xs.foldr insSorted []

/-- Lowercased sort key of a dictionary entry, `item[0].lower()`. -/
def lowerKey (e : String × PyNode) : String :=
  String.mk (e.1.data.map Char.toLower)

/-- Stable insertion of an entry into a list sorted by lowercased key: the
entry goes after every earlier entry whose key is less than or equal, which
reproduces the stable order of Python `sorted(key = lower)`. -/
def insLower (x : String × PyNode) : List (String × PyNode) → List (String × PyNode)
  | [] => [x]
  | y :: ys => if lowerKey y < lowerKey x then y :: insLower x ys else x :: y :: ys

/-- Stable sort of the children of a node by lowercased name,
`sorted(node.items(), key = lambda item: item[0].lower())`. -/
def sortLower (l : List (String × PyNode)) : List (String × PyNode) :=
  l.foldr insLower []

/-- Total number of entries in a nested dictionary, used to bound the
recursion depth of the renderer. -/
def entryCount : List (String × PyNode) → Nat
  | [] => 0
  | (_, PyNode.file) :: rest => 1 + entryCount rest
  | (_, PyNode.dir ch) :: rest => 1 + entryCount ch + entryCount rest

/-- The recursive line builder `_build_tree_lines_recursive`, applied to an
already sorted list of entries; children of a directory are sorted on
descent.  The last entry at a level uses the connector `└── `, every other
entry `├── `; continuation prefixes extend by four spaces after a last
entry and by `│   ` otherwise.  Recursion is driven by fuel; every call
passes strictly smaller fuel and a call on entries `l` needs at most
`entryCount l + 1` fuel (descending into a directory or moving to the next
sibling both strictly decrease the remaining entry count), so the wrapper
below always supplies enough. -/
def renderFuel : Nat → List (String × PyNode) → String → List String
  | 0, _, _ => []
  | _ + 1, [], _ => []
  | _ + 1, [(name, PyNode.file)], pre => [pre ++ "└── " ++ name]
  | fuel + 1, [(name, PyNode.dir ch)], pre =>
    (pre ++ "└── " ++ name) :: renderFuel fuel (sortLower ch) (pre ++ "    ")
  | fuel + 1, (name, PyNode.file) :: e :: rest, pre =>
    (pre ++ "├── " ++ name) :: renderFuel fuel (e :: rest) pre
  | fuel + 1, (name, PyNode.dir ch) :: e :: rest, pre =>
    (pre ++ "├── " ++ name)
      :: (renderFuel fuel (sortLower ch) (pre ++ "│   ")
          ++ renderFuel fuel (e :: rest) pre)

/-- The tree renderer `generate_tree_display`: an empty path list renders a
fixed placeholder; otherwise the unique sorted paths are inserted into a
nested dictionary which is rendered depth-first with children sorted
case-insensitively at each level. -/
def generate_tree_display (filepaths : List String) (repo_name : String) : String :=
  if filepaths = [] then
    "Repository Structure (" ++ repo_name ++ "):\n(No files included)\n---\n"
  else
    let root := (pySortedSet filepaths).foldl
      (fun d p => insertParts (pathParts p) d) []
    let lines := ("Repository Structure (" ++ repo_name ++ "):")
      :: renderFuel (entryCount root + 1) (sortLower root) ""
    String.intercalate "\n" lines ++ "\n---\n"

/-! ### Traversal and orchestration

The filesystem reachable from the root is modelled as the list of files
`os.walk` would enumerate in discovery order, each carrying its relative
path, byte size, content sample (the first at most 1024 bytes) and decoded
text content.  Per-file operating-system faults (stat or read errors) are
outside the model: every listed file can be statted and read, matching the
error-free executions the claims are about. -/

structure FileEntry where
  relpath : String
  size : Nat
  sample : List Nat
  content : String
deriving DecidableEq

structure RepoFS where
  isDir : Bool
  baseName : String
  files : List FileEntry
deriving DecidableEq

/-- The directory components of a relative path (all components except the
final filename); `os.walk` prunes ignored directories, so a file is
enumerated exactly when none of its directory components is ignored. -/
def dirParts (relpath : String) : List String :=
  (pathParts relpath).dropLast

/-- Files the pruned `os.walk` traversal enumerates, in discovery order. -/
def walkFiles (fs : RepoFS) : List FileEntry :=
  fs.files.filter
    (fun f => !(dirParts f.relpath).any (fun d => DEFAULT_IGNORE_DIRS.contains d))

/-- The accepted files of a run, in discovery order: enumerated by the
pruned walk, not larger than the size limit, and passing the filter with
the binary check enabled and the content sample supplied. -/
def acceptedFiles (fs : RepoFS) (incl excl : List String) (mb : Nat) : List FileEntry :=
  (walkFiles fs).filter
    (fun f =>
      decide (f.size ≤ mb * BYTES_IN_MB) &&
      should_process_file f.relpath incl excl DEFAULT_IGNORE_DIRS true (some f.sample))

/-- One concatenation record,
`f"--- {relative_filepath} ---\n{content}\n"`. -/
def fileRecord (f : FileEntry) : String :=
  "--- " ++ f.relpath ++ " ---\n" ++ f.content ++ "\n"

/-- Observable outcome of a run: the process exit status, the text written
to stdout, the text written to the output file (when one was written), and
whether a write failure was reported on stderr. -/
structure IngestResult where
  exitCode : Nat
  stdoutText : String
  fileText : Option String
  reportedWriteError : Bool
deriving DecidableEq

/-- The orchestration `ingest_repo` followed by process exit.  A missing or
non-directory root prints an error and returns, so the process ends with
status 0 and no output.  Otherwise the accepted files are concatenated
after the tree header, record parts joined by a newline, and the result
goes to the output file (`toFile = true`; `writable` injects the possible
`IOError`, which is caught and reported) or to stdout.  The `sys.exit(1)`
path for an invalid compiled pattern is unreachable because
`fnmatch.translate` output always compiles. -/
def ingest_repo (fs : RepoFS) (incl excl : List String)
    (toFile writable : Bool) (mb : Nat) : IngestResult :=
  if fs.isDir then
    let accepted := acceptedFiles fs incl excl mb
    let tree := generate_tree_display (accepted.map (fun f => f.relpath)) fs.baseName
    let finalOutput := tree ++ String.intercalate "\n" (accepted.map fileRecord)
    if toFile then
      if writable then
        { exitCode := 0, stdoutText := "", fileText := some finalOutput,
          reportedWriteError := false }
      else
        { exitCode := 0, stdoutText := "", fileText := none,
          reportedWriteError := true }
    else
      { exitCode := 0, stdoutText := finalOutput, fileText := none,
        reportedWriteError := false }
  else
    { exitCode := 0, stdoutText := "", fileText := none,
      reportedWriteError := false }

/-- Modelled from the spec: the output format asserted by the
specification, in which every record, the last one included, is followed by
a blank line (the source instead joins the records with a single newline,
leaving no blank line after the final record). -/
def claimOutput (fs : RepoFS) (incl excl : List String) (mb : Nat) : String :=
  generate_tree_display ((acceptedFiles fs incl excl mb).map (fun f => f.relpath)) fs.baseName
    ++ String.join ((acceptedFiles fs incl excl mb).map (fun f => fileRecord f ++ "\n"))

/-! ### Helper lemmas -/

/-- A predicate holds on some suffix exactly when the list splits so that
the predicate holds on the second part. -/
theorem suffixes_any_iff (f : List Char → Bool) (s : List Char) :
    (suffixes s).any f = true ↔ ∃ s1 s2 : List Char, s = s1 ++ s2 ∧ f s2 = true := by
  induction s with
  | nil =>
    simp only [suffixes, List.any_cons, List.any_nil, Bool.or_false]
    constructor
    · intro h; exact ⟨[], [], rfl, h⟩
    · rintro ⟨s1, s2, h, hf⟩
      rcases List.append_eq_nil.mp h.symm with ⟨rfl, rfl⟩
      exact hf
  | cons c cs ih =>
    simp only [suffixes, List.any_cons, Bool.or_eq_true, ih]
    constructor
    · rintro (h | ⟨s1, s2, rfl, hf⟩)
      · exact ⟨[], c :: cs, rfl, h⟩
      · exact ⟨c :: s1, s2, rfl, hf⟩
    · rintro ⟨s1, s2, h, hf⟩
      cases s1 with
      | nil => exact Or.inl (by simpa using h ▸ hf)
      | cons a s1 =>
        rcases List.cons_eq_cons.mp h with ⟨rfl, rfl⟩
        exact Or.inr ⟨s1, s2, rfl, hf⟩

/-! ### C1: glob compilation and anchoring -/

/-- C1 counterexample: the claim asserts that the compiled pattern matches
a path exactly when the entire path matches the glob.  For the pattern
`a.py` and the path `ba.py` the compiled pattern matches (a `re.search`
against a regex that is only end-anchored by `\Z` finds the suffix
`a.py`), while whole-string shell-glob semantics reject the path, so the
claim fails at this input. -/
theorem C1_counterexample :
    globSearchStr "a.py" "ba.py" = true ∧ globFullMatchStr "a.py" "ba.py" = false := by
  decide

/-- C1 (amended): the compiled matcher translates `*`, `?` and bracket
classes faithfully, but the translation is matched with `re.search` and is
anchored only at the end of the string by `\Z`: the compiled pattern
matches a path exactly when some suffix of the path, in whole, matches the
glob (with `*` matching across path separators).  In particular every
whole-string glob match is accepted, but so are proper suffix matches. -/
theorem C1_search_matches_some_suffix :
    ∀ p s : String,
      globSearchStr p s = true ↔
        ∃ s1 s2 : List Char, s.data = s1 ++ s2 ∧ matchGlob p.data s2 = true := by
  intro p s
  exact suffixes_any_iff (fun s2 => matchGlob p.data s2) s.data

/-! ### C3: exclusion precedence -/

/-- C3: whenever some exclude pattern matches the relative path, the filter
rejects the file, whatever the include patterns, the ignore set, the binary
check flag and the content sample are: the exclude stage runs before the
include stage and exclusion wins. -/
theorem C3_exclude_precedence :
    ∀ (path : String) (incl excl ign : List String) (bcheck : Bool)
      (sample : Option (List Nat)),
      excl.any (fun e => globSearchStr e path) = true →
      should_process_file path incl excl ign bcheck sample = false := by
  intro path incl excl ign bcheck sample hx
  simp only [should_process_file, should_process_file_verbose, hx]
  split_ifs <;> rfl

/-- C3 witness: the path `a.log` matches both the include pattern `*.log`
and the exclude pattern `*.log`, and is rejected. -/
theorem C3_exclude_precedence_witness :
    should_process_file "a.log" ["*.log"] ["*.log"] [] true (some [1]) = false :=
  C3_exclude_precedence "a.log" ["*.log"] ["*.log"] [] true (some [1]) (by decide)

/-! ### C4: missing root directory -/

/-- C4 counterexample: the claim asserts a non-zero exit status for a
missing or non-directory root.  On such a root `ingest_repo` prints to
stderr and returns, `main` returns, and the process exits with status 0 —
while indeed producing no output, so the non-zero-status half of the claim
is what fails. -/
theorem C4_counterexample :
    (ingest_repo ⟨false, "repo", [⟨"a.py", 2, [104, 105], "hi"⟩]⟩ [] [] false true 5).exitCode = 0 ∧
    (ingest_repo ⟨false, "repo", [⟨"a.py", 2, [104, 105], "hi"⟩]⟩ [] [] false true 5).stdoutText = "" ∧
    (ingest_repo ⟨false, "repo", [⟨"a.py", 2, [104, 105], "hi"⟩]⟩ [] [] false true 5).fileText = none := by
  decide

/-- C4 (amended): if the given root path does not exist or is not a
directory, the program terminates early with no traversal and no output on
stdout or the output file, but the process exit status is zero, not
non-zero: the early return in `ingest_repo` never sets a failure status. -/
theorem C4_bad_root_no_output_zero_status :
    ∀ (fs : RepoFS) (incl excl : List String) (toFile writable : Bool) (mb : Nat),
      fs.isDir = false →
      ingest_repo fs incl excl toFile writable mb =
        { exitCode := 0, stdoutText := "", fileText := none, reportedWriteError := false } := by
  intro fs incl excl toFile writable mb h
  simp [ingest_repo, h]

/-- C4 witness: a concrete non-directory root. -/
theorem C4_bad_root_witness :
    ingest_repo ⟨false, "r", []⟩ ["*.py"] ["*.log"] true true 5 =
      { exitCode := 0, stdoutText := "", fileText := none, reportedWriteError := false } :=
  C4_bad_root_no_output_zero_status ⟨false, "r", []⟩ ["*.py"] ["*.log"] true true 5 (by decide)

/-! ### C5: output write failure -/

/-- C5 counterexample: the claim asserts a non-zero exit status when the
output file cannot be written.  The source catches the `IOError`, prints an
error to stderr, and returns; the process exits with status 0. -/
theorem C5_counterexample :
    (ingest_repo ⟨true, "repo", [⟨"a.py", 2, [104, 105], "hi"⟩]⟩ [] [] true false 5).exitCode = 0 ∧
    (ingest_repo ⟨true, "repo", [⟨"a.py", 2, [104, 105], "hi"⟩]⟩ [] [] true false 5).reportedWriteError = true := by
  decide

/-- C5 (amended): if writing the concatenated result to the specified
output file fails, the error is reported after traversal completes and no
output is delivered, but the process exit status is zero, not non-zero. -/
theorem C5_write_failure_reported_zero_status :
    ∀ (fs : RepoFS) (incl excl : List String) (mb : Nat),
      fs.isDir = true →
      (ingest_repo fs incl excl true false mb).reportedWriteError = true ∧
      (ingest_repo fs incl excl true false mb).exitCode = 0 ∧
      (ingest_repo fs incl excl true false mb).fileText = none ∧
      (ingest_repo fs incl excl true false mb).stdoutText = "" := by
  intro fs incl excl mb h
  simp [ingest_repo, h]

/-- C5 witness: a concrete run against an unwritable destination. -/
theorem C5_write_failure_witness :
    (ingest_repo ⟨true, "r", []⟩ [] [] true false 5).reportedWriteError = true ∧
    (ingest_repo ⟨true, "r", []⟩ [] [] true false 5).exitCode = 0 ∧
    (ingest_repo ⟨true, "r", []⟩ [] [] true false 5).fileText = none ∧
    (ingest_repo ⟨true, "r", []⟩ [] [] true false 5).stdoutText = "" :=
  C5_write_failure_reported_zero_status ⟨true, "r", []⟩ [] [] 5 (by decide)

/-! ### C8: size limit -/

/-- C8: a file whose byte size strictly exceeds the configured maximum
(`max_file_size_mb` megabytes times `BYTES_IN_MB`) is skipped before the
filter runs and never appears in the accepted set, whatever the include and
exclude patterns are. -/
theorem C8_size_limit_skips :
    ∀ (fs : RepoFS) (incl excl : List String) (mb : Nat) (f : FileEntry),
      f.size > mb * BYTES_IN_MB →
      f ∉ acceptedFiles fs incl excl mb := by
  intro fs incl excl mb f hsize hmem
  have h := (List.mem_filter.mp hmem).2
  simp only [Bool.and_eq_true, decide_eq_true_eq] at h
  omega

/-- C8 witness: a file one byte over the default 5 MB limit, matching the
include pattern, is not accepted. -/
theorem C8_size_limit_witness :
    (⟨"a.py", 5242881, [], ""⟩ : FileEntry) ∉
      acceptedFiles ⟨true, "r", [⟨"a.py", 5242881, [], ""⟩]⟩ ["*.py"] [] 5 :=
  C8_size_limit_skips ⟨true, "r", [⟨"a.py", 5242881, [], ""⟩]⟩ ["*.py"] [] 5
    ⟨"a.py", 5242881, [], ""⟩ (by decide)

/-! ### C9: verbosity does not influence the decision -/

/-- C9: for every relative path, include patterns, exclude patterns,
ignored-directory set, binary-check flag and content sample, the inclusion
decision of the filter is the same for any two settings of the verbose
flag; with verbosity off no diagnostic line is emitted.  The flag only
controls the diagnostic stream. -/
theorem C9_verbose_never_changes_decision :
    ∀ (path : String) (incl excl ign : List String) (bcheck : Bool)
      (sample : Option (List Nat)) (v w : Bool),
      (should_process_file_verbose path incl excl ign bcheck sample v).fst =
        (should_process_file_verbose path incl excl ign bcheck sample w).fst ∧
      (should_process_file_verbose path incl excl ign bcheck sample false).snd = [] := by
  intro path incl excl ign bcheck sample v w
  constructor
  · simp only [should_process_file_verbose]
    split_ifs <;> rfl
  · simp only [should_process_file_verbose]
    split_ifs <;> simp_all

/-! ### C10: empty content sample skips the binary heuristic -/

/-- C10: with an empty content sample (a zero-byte file) the binary stage
is skipped entirely — the decision coincides with the decision made with
the binary check disabled — and a file whose extension is in the default
binary set is accepted when it passes the ignored-directory, exclude and
include stages with no include pattern matching it (so with no include
patterns configured). -/
theorem C10_empty_sample_skips_binary_stage :
    (∀ (path : String) (incl excl ign : List String) (bcheck : Bool),
      should_process_file path incl excl ign bcheck (some []) =
        should_process_file path incl excl ign false (some [])) ∧
    (∀ (path : String) (incl excl ign : List String),
      (pathParts path).any (fun part => ign.contains part) = false →
      excl.any (fun e => globSearchStr e path) = false →
      incl.any (fun p => globSearchStr p path) = false →
      (incl = [] ∨ incl.any (fun p => globSearchStr p path) = true) →
      extBin path = true →
      should_process_file path incl excl ign true (some []) = true) := by
  constructor
  · intro path incl excl ign bcheck
    simp [should_process_file, should_process_file_verbose, sampleTruthy]
  · intro path incl excl ign h1 h2 hno h3 _
    have hincl : incl = [] := by
      rcases h3 with h3 | h3
      · exact h3
      · rw [h3] at hno; exact absurd hno (by simp)
    subst hincl
    simp only [should_process_file, should_process_file_verbose, sampleTruthy]
    rw [h1, h2]
    simp

/-- C10 witness: an empty `x.png` with no patterns configured is accepted
even though its extension is in the default binary set. -/
theorem C10_empty_sample_witness :
    should_process_file "x.png" [] [] [] true (some []) = true :=
  C10_empty_sample_skips_binary_stage.2 "x.png" [] [] []
    (by decide) (by decide) (by decide) (Or.inl rfl) (by decide)

/-! ### C2: binary rejection and the null-byte heuristic -/

/-- C2 counterexample: the claim asserts that every candidate file whose
extension is in the default binary set and which survives the earlier
stages is rejected unless an include pattern matches it.  A zero-byte
`x.png` — no include patterns, surviving every earlier stage — is
nevertheless accepted, because the empty content sample is falsy and the
source skips the whole binary stage. -/
theorem C2_counterexample :
    extBin "x.png" = true ∧
    should_process_file "x.png" [] [] DEFAULT_IGNORE_DIRS true (some []) = true := by
  decide

/-- C2 (amended): for every candidate file with a nonempty content sample
whose extension is in the default binary set (case-insensitive) and which
survives the ignored-dir, exclude and include stages, the filter accepts it
exactly when some include pattern matches its relative path; a file is
classified binary by content exactly when strictly more than 10 percent of
the bytes in its sample are null bytes; and a file with no binary extension
and at most 10 percent null bytes that survives the earlier stages is never
rejected as binary.  The nonempty-sample proviso is forced by the
counterexample: with an empty sample the binary stage is skipped. -/
theorem C2_binary_rejection :
    (∀ (path : String) (incl excl ign : List String) (bs : List Nat),
      bs ≠ [] →
      extBin path = true →
      (pathParts path).any (fun part => ign.contains part) = false →
      excl.any (fun e => globSearchStr e path) = false →
      (incl = [] ∨ incl.any (fun p => globSearchStr p path) = true) →
      should_process_file path incl excl ign true (some bs) =
        incl.any (fun p => globSearchStr p path)) ∧
    (∀ (path : String) (bs : List Nat),
      extBin path = false →
      (is_likely_binary_file path (some bs) = true ↔ bs.length < 10 * countNulls bs)) ∧
    (∀ (path : String) (incl excl ign : List String) (bs : List Nat),
      extBin path = false →
      10 * countNulls bs ≤ bs.length →
      (pathParts path).any (fun part => ign.contains part) = false →
      excl.any (fun e => globSearchStr e path) = false →
      (incl = [] ∨ incl.any (fun p => globSearchStr p path) = true) →
      should_process_file path incl excl ign true (some bs) = true) := by
  refine ⟨?_, ?_, ?_⟩
  · intro path incl excl ign bs hbs hext h1 h2 h3
    have htruthy : sampleTruthy (some bs) = true := by
      cases bs with
      | nil => exact absurd rfl hbs
      | cons a l => rfl
    have hlikely : is_likely_binary_file path (some bs) = true := by
      simp [is_likely_binary_file, hext]
    rcases h3 with h3 | h3
    · subst h3
      simp only [should_process_file, should_process_file_verbose, htruthy, hlikely]
      rw [h1, h2]
      simp
    · simp only [should_process_file, should_process_file_verbose, htruthy, hlikely]
      rw [h1, h2, h3]
      simp
  · intro path bs hext
    simp [is_likely_binary_file, hext]
  · intro path incl excl ign bs hext hnulls h1 h2 h3
    have hlikely : is_likely_binary_file path (some bs) = false := by
      simp only [is_likely_binary_file, hext, Bool.false_or]
      simpa using hnulls
    rcases h3 with h3 | h3
    · subst h3
      simp only [should_process_file, should_process_file_verbose, hlikely]
      rw [h1, h2]
      simp
    · simp only [should_process_file, should_process_file_verbose, hlikely]
      rw [h1, h2, h3]
      simp

/-- C2 witness: a `.png` with a null-byte sample and a matching include
pattern is accepted; `.txt` is classified by the exact 10 percent rule; a
text sample with one null byte among eleven survives the heuristic. -/
theorem C2_binary_rejection_witness :
    should_process_file "x.png" ["*.png"] [] [] true (some [0]) =
      (["*.png"].any (fun p => globSearchStr p "x.png")) ∧
    (is_likely_binary_file "a.txt" (some [0]) = true ↔
      ([0] : List Nat).length < 10 * countNulls [0]) ∧
    should_process_file "a.txt" [] [] [] true (some [0, 1, 2, 3, 4, 5, 6, 7, 8, 9, 10]) = true :=
  ⟨C2_binary_rejection.1 "x.png" ["*.png"] [] [] [0]
      (by decide) (by decide) (by decide) (by decide) (Or.inr (by decide)),
   C2_binary_rejection.2.1 "a.txt" [0] (by decide),
   C2_binary_rejection.2.2 "a.txt" [] [] [] [0, 1, 2, 3, 4, 5, 6, 7, 8, 9, 10]
      (by decide) (by decide) (by decide) (by decide) (Or.inl rfl)⟩

/-! ### C6: output format and ordering -/

/-- C6 counterexample: the claim asserts that every record, the last one
included, is followed by a blank line.  The source joins the record parts
with a single newline, so the final record ends with the single newline of
the part itself and no blank line: on a root holding one file the produced
output differs from the claimed format. -/
theorem C6_counterexample :
    (ingest_repo ⟨true, "repo", [⟨"a.py", 2, [104, 105], "hi"⟩]⟩ [] [] false true 5).stdoutText ≠
      claimOutput ⟨true, "repo", [⟨"a.py", 2, [104, 105], "hi"⟩]⟩ [] [] 5 := by
  decide

/-- C6 (amended): the primary output equals the rendered tree header
followed by the records `--- <relative-path> ---`, decoded content and a
terminating newline for each accepted file, consecutive records separated
by a blank line (no blank line after the last record), with the records in
traversal-discovery order: the accepted list is a sublist of the
filesystem's discovery-order enumeration, even though the tree header
itself is alphabetically sorted. -/
theorem C6_output_format :
    ∀ (fs : RepoFS) (incl excl : List String) (mb : Nat),
      fs.isDir = true →
      (ingest_repo fs incl excl false true mb).stdoutText =
        generate_tree_display ((acceptedFiles fs incl excl mb).map (fun f => f.relpath)) fs.baseName
          ++ String.intercalate "\n" ((acceptedFiles fs incl excl mb).map fileRecord) ∧
      (acceptedFiles fs incl excl mb).Sublist fs.files := by
  intro fs incl excl mb h
  constructor
  · simp [ingest_repo, h]
  · exact (List.filter_sublist _).trans (List.filter_sublist _)

/-- C6 witness: a concrete two-file run. -/
theorem C6_output_format_witness :
    (ingest_repo ⟨true, "repo", [⟨"b.py", 1, [98], "b"⟩, ⟨"a.py", 1, [97], "a"⟩]⟩ [] [] false true 5).stdoutText =
      generate_tree_display
        ((acceptedFiles ⟨true, "repo", [⟨"b.py", 1, [98], "b"⟩, ⟨"a.py", 1, [97], "a"⟩]⟩ [] [] 5).map (fun f => f.relpath))
        "repo"
        ++ String.intercalate "\n"
          ((acceptedFiles ⟨true, "repo", [⟨"b.py", 1, [98], "b"⟩, ⟨"a.py", 1, [97], "a"⟩]⟩ [] [] 5).map fileRecord) ∧
    (acceptedFiles ⟨true, "repo", [⟨"b.py", 1, [98], "b"⟩, ⟨"a.py", 1, [97], "a"⟩]⟩ [] [] 5).Sublist
      [⟨"b.py", 1, [98], "b"⟩, ⟨"a.py", 1, [97], "a"⟩] :=
  C6_output_format ⟨true, "repo", [⟨"b.py", 1, [98], "b"⟩, ⟨"a.py", 1, [97], "a"⟩]⟩ [] [] 5 (by decide)

/-! ### C7: determinism of the tree renderer -/

/-- Membership after inserting into a strictly sorted list. -/
theorem mem_insSorted (a x : String) (l : List String) :
    a ∈ insSorted x l ↔ a = x ∨ a ∈ l := by
  induction l with
  | nil => simp [insSorted]
  | cons y ys ih =>
    simp only [insSorted]
    split_ifs with h1 h2
    · simp [List.mem_cons]
    · subst h2
      simp only [List.mem_cons]
      tauto
    · simp only [List.mem_cons, ih]
      tauto

/-- Inserting into a strictly sorted list keeps it strictly sorted. -/
theorem pairwise_insSorted (x : String) (l : List String)
    (h : l.Pairwise (· < ·)) : (insSorted x l).Pairwise (· < ·) := by
  induction l with
  | nil => simp [insSorted]
  | cons y ys ih =>
    rw [List.pairwise_cons] at h
    obtain ⟨hy, hys⟩ := h
    simp only [insSorted]
    split_ifs with h1 h2
    · refine List.Pairwise.cons (fun b hb => ?_) (List.Pairwise.cons hy hys)
      rcases List.mem_cons.mp hb with rfl | hb
      · exact h1
      · exact lt_trans h1 (hy b hb)
    · exact List.Pairwise.cons hy hys
    · have hyx : y < x := lt_of_le_of_ne (le_of_not_lt h1) (fun e => h2 e.symm)
      refine List.Pairwise.cons (fun b hb => ?_) (ih hys)
      rcases (mem_insSorted b x ys).mp hb with rfl | hb
      · exact hyx
      · exact hy b hb

/-- The canonical enumeration is strictly sorted. -/
theorem pairwise_pySortedSet (xs : List String) :
    (pySortedSet xs).Pairwise (· < ·) := by
  induction xs with
  | nil => simp [pySortedSet]
  | cons a l ih => exact pairwise_insSorted a (pySortedSet l) ih

/-- The canonical enumeration has the same members as its input. -/
theorem mem_pySortedSet (a : String) (xs : List String) :
    a ∈ pySortedSet xs ↔ a ∈ xs := by
  induction xs with
  | nil => simp [pySortedSet]
  | cons b l ih =>
    show a ∈ insSorted b (pySortedSet l) ↔ _
    rw [mem_insSorted]
    simp [ih, List.mem_cons]

/-- Two lists with the same members have the same canonical sorted
duplicate-free enumeration: `sorted(list(set(...)))` is a function of the
set alone. -/
theorem pySortedSet_ext (xs ys : List String)
    (hmem : ∀ p, p ∈ xs ↔ p ∈ ys) : pySortedSet xs = pySortedSet ys := by
  have n1 : (pySortedSet xs).Nodup := (pairwise_pySortedSet xs).imp ne_of_lt
  have n2 : (pySortedSet ys).Nodup := (pairwise_pySortedSet ys).imp ne_of_lt
  have hp : List.Perm (pySortedSet xs) (pySortedSet ys) :=
    (List.perm_ext_iff_of_nodup n1 n2).mpr (fun a =>
      (mem_pySortedSet a xs).trans ((hmem a).trans (mem_pySortedSet a ys).symm))
  exact List.eq_of_perm_of_sorted hp
    ((pairwise_pySortedSet xs).imp le_of_lt)
    ((pairwise_pySortedSet ys).imp le_of_lt)

/-- C7: the tree renderer is a pure deterministic function of the path
set — two input sequences with the same members, in any order and with any
duplication, render to character-for-character identical output — and the
empty path list renders the fixed placeholder. -/
theorem C7_tree_renderer_deterministic :
    (∀ (xs ys : List String) (name : String),
      (∀ p, p ∈ xs ↔ p ∈ ys) →
      generate_tree_display xs name = generate_tree_display ys name) ∧
    (∀ name : String,
      generate_tree_display [] name =
        "Repository Structure (" ++ name ++ "):\n(No files included)\n---\n") := by
  constructor
  · intro xs ys name hmem
    by_cases hx : xs = []
    · have hy : ys = [] := by
        cases ys with
        | nil => rfl
        | cons a l =>
          have ha := (hmem a).mpr (List.mem_cons_self a l)
          rw [hx] at ha
          exact absurd ha (List.not_mem_nil a)
      rw [hx, hy]
    · have hy : ys ≠ [] := by
        intro h
        cases xs with
        | nil => exact hx rfl
        | cons a l =>
          have ha := (hmem a).mp (List.mem_cons_self a l)
          rw [h] at ha
          exact absurd ha (List.not_mem_nil a)
      simp only [generate_tree_display, if_neg hx, if_neg hy,
        pySortedSet_ext xs ys hmem]
  · intro name
    rfl

/-- C7 witness: reordering and duplicating the path list leaves the
rendered tree unchanged. -/
theorem C7_tree_renderer_witness :
    generate_tree_display ["b", "a", "b"] "r" = generate_tree_display ["a", "b"] "r" :=
  C7_tree_renderer_deterministic.1 ["b", "a", "b"] ["a", "b"] "r"
    (fun p => by simp only [List.mem_cons, List.not_mem_nil, or_false]; tauto)

end Digest
